import Mathlib

/-!
Verification development for the asynchronous OCR job service.

The definitions below are a shallow embedding of the TypeScript sources:
the persisted `Job` row (prisma schema), the worker finalization writes
(`src/worker/processor.ts`), the admin PATCH route
(`src/app/api/admin/jobs/[id]/route.ts`), the stuck-job queries
(`src/app/api/admin/stats/route.ts` and the admin jobs listing), the
public status route (`src/app/api/status/[id]/route.ts`), the file
validation service and webhook sink (`src/services/ocr.ts` parts), the
webhook URL validator (zod schema), and the enrichment regular
expressions of `OCRService`.

Timestamps are modelled as integer milliseconds; byte buffers as lists
of naturals; nullable columns as `Option`.
-/

namespace OCRSpec

/-- Job status enum from the prisma schema (PENDING, PROCESSING, COMPLETED, FAILED). -/
inductive JobStatus where
  | pending
  | processing
  | completed
  | failed
deriving DecidableEq, Repr

/-- Persisted Job row, mirroring the prisma model Job: nullable columns are
`Option`, `fileData` is raw bytes, timestamps are integer milliseconds. -/
structure Job where
  id : String
  status : JobStatus
  documentType : String
  email : String
  callbackWebhook : Option String
  fileData : List Nat
  fileName : String
  mimeType : String
  ocrResult : Option String
  errorMessage : Option String
  createdAt : Int
  updatedAt : Int
  processedAt : Option Int
deriving DecidableEq, Repr

/-- Terminal-row invariant claimed for the store (spec section 3): for a row in a
terminal state, COMPLETED holds iff `ocrResult` is set and `errorMessage` is
null, FAILED holds iff `errorMessage` is set, and both terminal states carry a
`processedAt` timestamp. -/
def terminalInvariant (j : Job) : Prop :=
  (j.status = JobStatus.completed ∨ j.status = JobStatus.failed) →
    ((j.status = JobStatus.completed ↔ (j.ocrResult ≠ none ∧ j.errorMessage = none)) ∧
     (j.status = JobStatus.failed ↔ j.errorMessage ≠ none) ∧
     j.processedAt ≠ none)

instance (j : Job) : Decidable (terminalInvariant j) := by
  unfold terminalInvariant
  infer_instance

/-- Worker finalize to COMPLETED (processor.ts lines 74-81): one update writing
status COMPLETED, the serialized result and `processedAt`; prisma bumps
`updatedAt` on every update (`@updatedAt`). -/
def finalizeCompleted (j : Job) (resultJson : String) (now : Int) : Job :=
  { j with
    status := JobStatus.completed
    ocrResult := some resultJson
    processedAt := some now
    updatedAt := now }

/-- Worker finalize to FAILED (processor.ts lines 105-112): one update writing
status FAILED, the error message and `processedAt`; `updatedAt` is bumped. -/
def finalizeFailed (j : Job) (msg : String) (now : Int) : Job :=
  { j with
    status := JobStatus.failed
    errorMessage := some msg
    processedAt := some now
    updatedAt := now }

/-- Admin PATCH status update (admin/jobs/[id]/route.ts lines 108-124): when a
status is supplied it is written; PENDING additionally clears `errorMessage`
and `processedAt`; FAILED together with a (truthy, hence non-empty) error
message writes that message and stamps `processedAt`. Nothing else is touched;
`updatedAt` is bumped by prisma on any update. -/
def adminPatchJob (j : Job) (status : Option JobStatus) (errorMessage : Option String)
    (now : Int) : Job :=
  match status with
  | none => { j with updatedAt := now }
  | some s =>
      let j1 : Job := { j with status := s, updatedAt := now }
      let j2 : Job :=
        if s = JobStatus.pending then { j1 with errorMessage := none, processedAt := none }
        else j1
      match errorMessage with
      | some m => if s = JobStatus.failed ∧ m ≠ "" then
            { j2 with errorMessage := some m, processedAt := some now }
          else j2
      | none => j2

/-- Concrete freshly created job row (upload route: status PENDING, result
fields null). -/
def freshJob : Job :=
  { id := "5b2f0a51-0000-4000-8000-000000000001"
    status := JobStatus.pending
    documentType := "invoice"
    email := "user@example.com"
    callbackWebhook := none
    fileData := []
    fileName := "scan.png"
    mimeType := "image/png"
    ocrResult := none
    errorMessage := none
    createdAt := 0
    updatedAt := 0
    processedAt := none }

/-- C1 counterexample: the admin PATCH does not preserve the terminal-row
invariant. Patching a fresh PENDING row to FAILED without supplying an error
message yields a FAILED row whose `errorMessage` and `processedAt` are both
null, violating the invariant; so the claim that the PATCH route preserves the
invariant is false. -/
theorem adminPatch_breaks_invariant :
    terminalInvariant freshJob ∧
    (adminPatchJob freshJob (some JobStatus.failed) none 5).status = JobStatus.failed ∧
    ¬ terminalInvariant (adminPatchJob freshJob (some JobStatus.failed) none 5) := by
  refine ⟨by decide, by decide, by decide⟩

/-- C1 amended: the worker finalize writes establish the terminal invariant
(COMPLETED finalize needs the claimed row's `errorMessage` to be null, which
holds for every row reachable as PENDING), and the admin PATCH preserves it for
status PENDING and for status FAILED with a non-empty message; PATCH to
COMPLETED, or to FAILED without a message, is not covered and can violate it. -/
theorem finalize_presPATCH_invariant (j : Job) (r m : String) (e : Option String) (now : Int) :
    (j.errorMessage = none → terminalInvariant (finalizeCompleted j r now)) ∧
    terminalInvariant (finalizeFailed j m now) ∧
    terminalInvariant (adminPatchJob j (some JobStatus.pending) e now) ∧
    (m ≠ "" → terminalInvariant (adminPatchJob j (some JobStatus.failed) (some m) now)) := by
  refine ⟨?_, ?_, ?_, ?_⟩
  · intro h
    intro _
    refine ⟨?_, ?_, ?_⟩ <;> simp [finalizeCompleted, h]
  · intro _
    refine ⟨?_, ?_, ?_⟩ <;> simp [finalizeFailed]
  · intro habs
    cases e <;> simp [adminPatchJob] at habs
  · intro hm
    intro _
    refine ⟨?_, ?_, ?_⟩ <;> simp [adminPatchJob, hm]

/-- C1 amended witness: the amended statement instantiated on a concrete fresh
row, a concrete result string and error message. -/
theorem finalize_presPATCH_invariant_witness :
    terminalInvariant (finalizeCompleted freshJob "ocr-output" 7) ∧
    terminalInvariant (adminPatchJob freshJob (some JobStatus.failed) (some "boom") 7) :=
  ⟨(finalize_presPATCH_invariant freshJob "ocr-output" "boom" none 7).1 (by decide),
   (finalize_presPATCH_invariant freshJob "ocr-output" "boom" none 7).2.2.2 (by decide)⟩

/-- Stats route stuck query (admin/stats/route.ts lines 26-39): a job appears in
the stuck list iff status is PROCESSING and `updatedAt` is older than ten
minutes before now. -/
def statsStuck (j : Job) (now : Int) : Bool :=
  j.status = JobStatus.processing ∧ j.updatedAt < now - 10 * 60 * 1000

/-- Processing time derived by the admin jobs listing (and the single-job admin
GET): `processedAt - createdAt` when `processedAt` is set, otherwise
`now - createdAt`. -/
def listProcessingTime (j : Job) (now : Int) : Int :=
  match j.processedAt with
  | some p => p - j.createdAt
  | none => now - j.createdAt

/-- Derived `isStuck` flag of the admin jobs listing: status PROCESSING and
derived processing time above ten minutes. -/
def listIsStuck (j : Job) (now : Int) : Bool :=
  j.status = JobStatus.processing ∧ listProcessingTime j now > 10 * 60 * 1000

/-- Stuckness predicate as the claim states it: PROCESSING and
`now - updatedAt` above ten minutes, `updatedAt` being the sole signal. -/
def claimStuck (j : Job) (now : Int) : Bool :=
  j.status = JobStatus.processing ∧ now - j.updatedAt > 10 * 60 * 1000

/-- Concrete PROCESSING row whose `updatedAt` was just bumped but whose
`createdAt` is more than ten minutes old. -/
def justTouchedJob : Job :=
  { freshJob with status := JobStatus.processing, createdAt := 0, updatedAt := 700000 }

/-- C7 counterexample: the derived `isStuck` flag of the admin jobs listing is
not `updatedAt`-based. A PROCESSING row created eleven minutes ago whose
`updatedAt` equals now is flagged stuck by the listing although
`now - updatedAt` is zero, so `updatedAt` is not the sole stuckness signal. -/
theorem listIsStuck_ignores_updatedAt :
    listIsStuck justTouchedJob 700000 = true ∧
    claimStuck justTouchedJob 700000 = false ∧
    statsStuck justTouchedJob 700000 = false := by
  refine ⟨by decide, by decide, by decide⟩

/-- Helper: the derived processing time equals `processedAt` (defaulting to
now) minus `createdAt`. -/
theorem listProcessingTime_eq (j : Job) (now : Int) :
    listProcessingTime j now = j.processedAt.getD now - j.createdAt := by
  obtain ⟨i, st, dt, em, cw, fd, fn, mt, orr, emsg, ca, ua, pa⟩ := j
  cases pa <;> simp [listProcessingTime]

/-- C7 amended: the admin stats stuck list is exactly `updatedAt`-based
(PROCESSING and `now - updatedAt` over ten minutes), but the `isStuck` flag of
the admin jobs listing is driven by `createdAt`: it holds iff the row is
PROCESSING and `(processedAt or now) - createdAt` exceeds ten minutes. -/
theorem stuck_surfaces_characterization (j : Job) (now : Int) :
    statsStuck j now = claimStuck j now ∧
    listIsStuck j now =
      (decide (j.status = JobStatus.processing) &&
       decide ((j.processedAt.getD now) - j.createdAt > 10 * 60 * 1000)) := by
  constructor
  · simp only [statsStuck, claimStuck, decide_eq_decide]
    constructor
    · rintro ⟨h1, h2⟩; exact ⟨h1, by omega⟩
    · rintro ⟨h1, h2⟩; exact ⟨h1, by omega⟩
  · simp only [listIsStuck, listProcessingTime_eq, Bool.decide_and]

/-- JSON value of a status-response field. -/
inductive JVal where
  | jstr (v : String)
  | jint (v : Int)
  | jstatus (v : JobStatus)
  | jnull
deriving DecidableEq, Repr

/-- Nullable string column rendered into a response field. -/
def optStr : Option String → JVal
  | some s => JVal.jstr s
  | none => JVal.jnull

/-- Nullable timestamp column rendered into a response field. -/
def optTime : Option Int → JVal
  | some t => JVal.jint t
  | none => JVal.jnull

/-- Public status response body (status/[id]/route.ts lines 43-60): the base
fields are always present; `ocrResult` and `processedAt` are added when the
status is COMPLETED; `errorMessage` and `processedAt` are added when the status
is FAILED. The route's select never reads `fileData` or `fileName`. -/
def statusResponseFields (j : Job) : List (String × JVal) :=
  [("id", JVal.jstr j.id),
   ("status", JVal.jstatus j.status),
   ("documentType", JVal.jstr j.documentType),
   ("email", JVal.jstr j.email),
   ("createdAt", JVal.jint j.createdAt),
   ("updatedAt", JVal.jint j.updatedAt)] ++
  (if j.status = JobStatus.completed then
     [("ocrResult", optStr j.ocrResult), ("processedAt", optTime j.processedAt)]
   else []) ++
  (if j.status = JobStatus.failed then
     [("errorMessage", optStr j.errorMessage), ("processedAt", optTime j.processedAt)]
   else [])

/-- Field names present in the public status response. -/
def statusResponseKeys (j : Job) : List String :=
  (statusResponseFields j).map Prod.fst

/-- C10: the status response carries `ocrResult` exactly for COMPLETED rows and
`errorMessage` exactly for FAILED rows, `processedAt` exactly for terminal
rows; PENDING and PROCESSING responses consist of exactly the six base fields;
`fileData` and `fileName` never appear. -/
theorem statusResponse_fields_by_status (j : Job) :
    (("ocrResult") ∈ statusResponseKeys j ↔ j.status = JobStatus.completed) ∧
    (("errorMessage") ∈ statusResponseKeys j ↔ j.status = JobStatus.failed) ∧
    (("processedAt") ∈ statusResponseKeys j ↔
      (j.status = JobStatus.completed ∨ j.status = JobStatus.failed)) ∧
    ((j.status = JobStatus.pending ∨ j.status = JobStatus.processing) →
      statusResponseKeys j =
        ["id", "status", "documentType", "email", "createdAt", "updatedAt"]) ∧
    (("fileData") ∉ statusResponseKeys j ∧ ("fileName") ∉ statusResponseKeys j) := by
  cases hs : j.status <;>
    simp [statusResponseKeys, statusResponseFields, hs]

/-- C10 witness: the characterization applied to a fresh PENDING row. -/
theorem statusResponse_fields_by_status_witness :
    statusResponseKeys freshJob =
      ["id", "status", "documentType", "email", "createdAt", "updatedAt"] :=
  (statusResponse_fields_by_status freshJob).2.2.2.1 (Or.inl (by decide))

/-- Outcome of the webhook HTTP POST as seen by the sink: a response with some
status code, a transport error, or a timeout. -/
inductive HttpOutcome where
  | response (status : Nat)
  | transportError
  | timeout
deriving DecidableEq, Repr

/-- Result of `WebhookService.sendCallback`: either the POST came back 2xx, or
the failure was logged and swallowed. The function never throws. -/
inductive SendResult where
  | delivered
  | swallowed
deriving DecidableEq, Repr

/-- WebhookService.sendCallback (webhook service, lines 1579-1615 of the
service sources): a non-ok response makes it throw internally, but the
surrounding catch logs and swallows every error, so the caller always gets a
normal return. `response.ok` means a status in [200, 300). -/
def sendCallback (outcome : HttpOutcome) : SendResult :=
  match outcome with
  | HttpOutcome.response s =>
      if 200 ≤ s ∧ s < 300 then SendResult.delivered else SendResult.swallowed
  | HttpOutcome.transportError => SendResult.swallowed
  | HttpOutcome.timeout => SendResult.swallowed

/-- Worker completion path (processor.ts lines 74-98): finalize the row as
COMPLETED, then, when `callbackWebhook` is set, attempt the webhook inside its
own try/catch; the row is not written again afterwards. -/
def workerCompleteAndNotify (j : Job) (resultJson : String) (now : Int)
    (outcome : HttpOutcome) : Job × Option SendResult :=
  let j1 := finalizeCompleted j resultJson now
  match j.callbackWebhook with
  | some _ => (j1, some (sendCallback outcome))
  | none => (j1, none)

/-- Helper: the job component of the completion path is the finalized row,
independent of the webhook branch. -/
theorem workerCompleteAndNotify_fst (j : Job) (r : String) (now : Int)
    (o : HttpOutcome) :
    (workerCompleteAndNotify j r now o).1 = finalizeCompleted j r now := by
  obtain ⟨i, st, dt, em, cw, fd, fn, mt, orr, emsg, ca, ua, pa⟩ := j
  cases cw <;> rfl

/-- C6: webhook failure is logged and swallowed, never retried, and never
propagated to job state: whatever the HTTP outcome, the finalized row is the
same COMPLETED row with its result fields intact, and every non-2xx response,
transport error or timeout maps to a swallowed (non-throwing) send result. -/
theorem webhook_failure_never_corrupts_job (j : Job) (r : String) (now : Int)
    (o1 o2 : HttpOutcome) :
    (workerCompleteAndNotify j r now o1).1 = finalizeCompleted j r now ∧
    (workerCompleteAndNotify j r now o1).1 = (workerCompleteAndNotify j r now o2).1 ∧
    (workerCompleteAndNotify j r now o1).1.status = JobStatus.completed ∧
    (workerCompleteAndNotify j r now o1).1.ocrResult = some r ∧
    (∀ s : Nat, ¬ (200 ≤ s ∧ s < 300) →
      sendCallback (HttpOutcome.response s) = SendResult.swallowed) ∧
    sendCallback HttpOutcome.transportError = SendResult.swallowed ∧
    sendCallback HttpOutcome.timeout = SendResult.swallowed := by
  refine ⟨workerCompleteAndNotify_fst j r now o1, ?_, ?_, ?_, ?_, rfl, rfl⟩
  · rw [workerCompleteAndNotify_fst, workerCompleteAndNotify_fst]
  · rw [workerCompleteAndNotify_fst]; rfl
  · rw [workerCompleteAndNotify_fst]; rfl
  · intro s hs
    simp [sendCallback, hs]

/-- C6 witness: a job with a webhook configured, completed while the webhook
endpoint answers 500: the row stays COMPLETED with its result, and the send
result is swallowed. -/
theorem webhook_failure_never_corrupts_job_witness :
    (workerCompleteAndNotify
        { freshJob with callbackWebhook := some "https://client.example.com/hook" }
        "ocr-json" 9 (HttpOutcome.response 500)).1.status = JobStatus.completed ∧
    sendCallback (HttpOutcome.response 500) = SendResult.swallowed :=
  ⟨(webhook_failure_never_corrupts_job
      { freshJob with callbackWebhook := some "https://client.example.com/hook" }
      "ocr-json" 9 (HttpOutcome.response 500) (HttpOutcome.response 500)).2.2.1,
   (webhook_failure_never_corrupts_job
      { freshJob with callbackWebhook := some "https://client.example.com/hook" }
      "ocr-json" 9 (HttpOutcome.response 500) (HttpOutcome.response 500)).2.2.2.2.1
      500 (by omega)⟩

/-- Pending-status test used by the claim query. -/
def isPending (j : Job) : Bool := j.status = JobStatus.pending

/-- Oldest PENDING row by `createdAt` ascending (processor.ts findFirst with
orderBy createdAt asc); ties go to the earlier row in store order. -/
def oldestPending (store : List Job) : Option Job :=
  match store.filter isPending with
  | [] => none
  | x :: xs =>
      some (xs.foldl (fun best j => if j.createdAt < best.createdAt then j else best) x)

/-- Atomic claim transaction (processor.ts lines 19-34): inside one store
transaction, find the oldest PENDING row and update it to PROCESSING (bumping
`updatedAt`), returning the updated row; return none when no PENDING row
exists. The store serializes transactions, so each claim is one atomic step on
the job table. -/
def claimOldestPending (store : List Job) (now : Int) : Option Job × List Job :=
  match oldestPending store with
  | none => (none, store)
  | some p =>
      let claimed : Job := { p with status := JobStatus.processing, updatedAt := now }
      (some claimed, store.map (fun j => if j.id = p.id then claimed else j))

/-- Sequential execution of n claim transactions; by serializability, any
concurrent run of n claiming workers is equivalent to some such sequence. -/
def runClaims (store : List Job) (now : Int) : Nat → List (Option Job) × List Job
  | 0 => ([], store)
  | Nat.succ n =>
      let step := claimOldestPending store now
      let rest := runClaims step.2 now n
      (step.1 :: rest.1, rest.2)

/-- Helper: with no PENDING row, a claim returns none and leaves the store
unchanged. -/
theorem claim_of_no_pending (store : List Job) (now : Int)
    (h : store.filter isPending = []) :
    claimOldestPending store now = (none, store) := by
  unfold claimOldestPending oldestPending
  rw [h]

/-- Helper: with no PENDING row, n claims all return none. -/
theorem runClaims_of_no_pending (now : Int) :
    ∀ (n : Nat) (store : List Job), store.filter isPending = [] →
      runClaims store now n = (List.replicate n none, store) := by
  intro n
  induction n with
  | zero => intro store _; rfl
  | succ m ih =>
      intro store h
      unfold runClaims
      rw [claim_of_no_pending store now h]
      simp [ih store h, List.replicate_succ]

/-- Helper: with exactly one PENDING row j0, the claim returns j0 updated to
PROCESSING and the resulting store has no PENDING row. -/
theorem claim_of_single_pending (store : List Job) (j0 : Job) (now : Int)
    (h : store.filter isPending = [j0]) :
    claimOldestPending store now =
      (some { j0 with status := JobStatus.processing, updatedAt := now },
       store.map (fun j => if j.id = j0.id then
         { j0 with status := JobStatus.processing, updatedAt := now } else j)) ∧
    (store.map (fun j => if j.id = j0.id then
       { j0 with status := JobStatus.processing, updatedAt := now } else j)).filter
        isPending = [] := by
  constructor
  · unfold claimOldestPending oldestPending
    rw [h]
    rfl
  · rw [List.filter_eq_nil_iff]
    intro b hb
    rw [List.mem_map] at hb
    obtain ⟨a, ha, rfl⟩ := hb
    by_cases hid : a.id = j0.id
    · simp [hid, isPending]
    · simp only [hid, if_false]
      intro hpend
      have : a ∈ store.filter isPending := List.mem_filter.mpr ⟨ha, hpend⟩
      rw [h, List.mem_singleton] at this
      exact hid (by rw [this])

/-- Helper: a predicate false on the replicated element counts zero. -/
theorem countP_replicate_none (p : Option Job → Bool) (hp : p none = false) :
    ∀ n : Nat, (List.replicate n (none : Option Job)).countP p = 0 := by
  intro n
  induction n with
  | zero => rfl
  | succ m ih => simp [List.replicate_succ, List.countP_cons, hp, ih]

/-- C2: serializable claims dispatch a single PENDING job at most once. If the
store holds exactly one PENDING row j0, then in any serialized run of n ≥ 1
claim transactions exactly one claimant obtains j0 (updated to PROCESSING) and
every other claimant obtains nothing. -/
theorem claim_exactly_one (store : List Job) (j0 : Job) (now : Int) (n : Nat)
    (hn : 1 ≤ n) (h : store.filter isPending = [j0]) :
    ((runClaims store now n).1.countP
      (fun r => r = some { j0 with status := JobStatus.processing, updatedAt := now })
      = 1) ∧
    (∀ r ∈ (runClaims store now n).1,
      r = some { j0 with status := JobStatus.processing, updatedAt := now } ∨ r = none) := by
  obtain ⟨m, rfl⟩ : ∃ m, n = m + 1 := ⟨n - 1, by omega⟩
  obtain ⟨hstep, hempty⟩ := claim_of_single_pending store j0 now h
  have hrun : runClaims store now (m + 1) =
      (some { j0 with status := JobStatus.processing, updatedAt := now } ::
        List.replicate m none,
       store.map (fun j => if j.id = j0.id then
         { j0 with status := JobStatus.processing, updatedAt := now } else j)) := by
    unfold runClaims
    rw [hstep]
    simp [runClaims_of_no_pending now m _ hempty]
  rw [hrun]
  constructor
  · simp only [List.countP_cons]
    rw [countP_replicate_none _ (by simp)]
    simp
  · intro r hr
    rw [List.mem_cons] at hr
    rcases hr with hr | hr
    · exact Or.inl hr
    · exact Or.inr (List.eq_of_mem_replicate hr)

/-- C2 witness: three workers racing on a store holding a single PENDING job;
exactly one claim succeeds. -/
theorem claim_exactly_one_witness :
    ((runClaims [freshJob] 9 3).1.countP
      (fun r => r = some { freshJob with status := JobStatus.processing, updatedAt := 9 })
      = 1) :=
  (claim_exactly_one [freshJob] freshJob 9 3 (by decide) (by decide)).1

/-- Distinct failure returns of FileValidationService (each constructor stands
for one of the error strings built in the service). -/
inductive ValidationError where
  | fileTooLarge (size : Nat)
  | unknownType
  | unsupportedType (mime : String)
  | typeMismatch (claimed detected : String)
  | imageFailed (reason : String)
  | pdfNoPages
  | pdfTooManyPages (n : Nat)
  | pdfEncrypted
  | pdfFailed (msg : String)
deriving DecidableEq, Repr

/-- Validation outcome: either a failure, or the detected MIME together with
the sanitized buffer. -/
abbrev VResult := Except ValidationError (String × List Nat)

/-- The isValid flag of a validation result. -/
def isValidResult (r : VResult) : Bool :=
  match r with
  | Except.ok _ => true
  | Except.error _ => false

/-- MAX FILE SIZE of the validator: 50 MiB. -/
def maxFileSize : Nat := 50 * 1024 * 1024

/-- MAX PDF PAGES of the validator. -/
def maxPdfPages : Nat := 500

/-- Allow-listed MIME types (keys of ALLOWED TYPES). -/
def allowedTypes : List String :=
  ["image/png", "image/jpeg", "image/tiff", "image/bmp", "image/webp", "application/pdf"]

/-- Boolean prefix test on lists. -/
def leadsWith [BEq α] : List α → List α → Bool
  | [], _ => true
  | _ :: _, [] => false
  | a :: as, b :: bs => a == b && leadsWith as bs

/-- Boolean contiguous-subsequence test on lists. -/
def containsSeq [BEq α] (needle : List α) : List α → Bool
  | [] => needle.isEmpty
  | b :: t => leadsWith needle (b :: t) || containsSeq needle t

/-- JS String.startsWith on the character lists. -/
def strStarts (s p : String) : Bool := leadsWith p.toList s.toList

/-- Lower-case then trim, on character lists (JS toLowerCase().trim() on the
ASCII MIME strings involved). -/
def lowerTrim (s : String) : String :=
  String.mk
    ((((s.toList.map Char.toLower).dropWhile Char.isWhitespace).reverse.dropWhile
        Char.isWhitespace).reverse)

/-- MIME normalization (normalizeMimeType): lower-case, trim, map the jpg and
tif variants to their canonical names. -/
def normalizeMimeType (m : String) : String :=
  let n := lowerTrim m
  if n = "image/jpg" then "image/jpeg"
  else if n = "image/tif" then "image/tiff"
  else n

/-- Outcome of the external PDF parser (pdf-lib PDFDocument.load configured
with ignoreEncryption false and throwOnInvalidObject true): a parsed document
with its page count, or a thrown error with its message; the encryption
rejection surfaces as a message mentioning encryption. -/
inductive PdfParse where
  | parsed (pageCount : Nat)
  | failed (msg : String)
deriving DecidableEq, Repr

/-- Bytes of an ASCII token. -/
def strBytes (s : String) : List Nat := s.toList.map Char.toNat

/-- Substring test on strings (JS String.includes). -/
def strContains (s sub : String) : Bool := containsSeq sub.toList s.toList

/-- JavaScript-indicator scan (checkPDFForJavaScript): look at the first 1 MiB
of the raw bytes for the ASCII tokens of the four indicators. -/
def checkPDFForJavaScript (buffer : List Nat) : Bool :=
  let window := buffer.take (1024 * 1024)
  containsSeq (strBytes ("/JavaScript")) window ||
  containsSeq (strBytes ("/JS")) window ||
  containsSeq (strBytes ("/OpenAction")) window ||
  containsSeq (strBytes ("/AA")) window

/-- PDF validation (validatePDF): a parse failure mentioning encryption maps
to the encrypted error, any other parse failure to a generic failure; a parsed
document fails on zero pages or on more than 500 pages; the JavaScript scan is
computed and logged but both of its branches accept. -/
def validatePDF (parse : PdfParse) (buffer : List Nat) : VResult :=
  match parse with
  | PdfParse.parsed pageCount =>
      if pageCount = 0 then Except.error ValidationError.pdfNoPages
      else if pageCount > maxPdfPages then
        Except.error (ValidationError.pdfTooManyPages pageCount)
      else
        if checkPDFForJavaScript buffer then Except.ok ("application/pdf", buffer)
        else Except.ok ("application/pdf", buffer)
  | PdfParse.failed msg =>
      if strContains msg ("encryption") then Except.error ValidationError.pdfEncrypted
      else Except.error (ValidationError.pdfFailed msg)

/-- File validation entry point (validateFile), parametrized by the external
capabilities: `detect` is file-type magic-number detection from the bytes,
`imageCheck` the sharp-based image validation, `pdfParse` the pdf-lib parse.
The checks run in the order of the source: size gate, detection, allow-list,
claimed/detected consistency after normalization, then the type-specific
check. -/
def validateFile (detect : List Nat → Option String)
    (imageCheck : List Nat → String → VResult)
    (pdfParse : List Nat → PdfParse)
    (buffer : List Nat) (claimedMimeType : String) : VResult :=
  if buffer.length > maxFileSize then
    Except.error (ValidationError.fileTooLarge buffer.length)
  else
    match detect buffer with
    | none => Except.error ValidationError.unknownType
    | some mime =>
        if ¬ (mime ∈ allowedTypes) then
          Except.error (ValidationError.unsupportedType mime)
        else if normalizeMimeType claimedMimeType ≠ normalizeMimeType mime then
          Except.error (ValidationError.typeMismatch claimedMimeType mime)
        else if strStarts mime ("image/") then imageCheck buffer mime
        else if mime = "application/pdf" then validatePDF (pdfParse buffer) buffer
        else Except.ok (mime, buffer)

/-- C3: validateFile applies its gates in a fixed order with first failure
winning: oversized buffers fail with the size error regardless of anything
else; then an undetectable type fails; then a detected type outside the
allow-list fails; then a normalized claimed/detected mismatch fails; and
otherwise the type-specific image or PDF check decides the result. -/
theorem validateFile_order (detect : List Nat → Option String)
    (imageCheck : List Nat → String → VResult)
    (pdfParse : List Nat → PdfParse)
    (buffer : List Nat) (claimed : String) :
    (buffer.length > maxFileSize →
      validateFile detect imageCheck pdfParse buffer claimed =
        Except.error (ValidationError.fileTooLarge buffer.length)) ∧
    (buffer.length ≤ maxFileSize → detect buffer = none →
      validateFile detect imageCheck pdfParse buffer claimed =
        Except.error ValidationError.unknownType) ∧
    (∀ mime, buffer.length ≤ maxFileSize → detect buffer = some mime →
      mime ∉ allowedTypes →
      validateFile detect imageCheck pdfParse buffer claimed =
        Except.error (ValidationError.unsupportedType mime)) ∧
    (∀ mime, buffer.length ≤ maxFileSize → detect buffer = some mime →
      mime ∈ allowedTypes →
      normalizeMimeType claimed ≠ normalizeMimeType mime →
      validateFile detect imageCheck pdfParse buffer claimed =
        Except.error (ValidationError.typeMismatch claimed mime)) ∧
    (∀ mime, buffer.length ≤ maxFileSize → detect buffer = some mime →
      mime ∈ allowedTypes →
      normalizeMimeType claimed = normalizeMimeType mime →
      (strStarts mime ("image/") = true ∧
        validateFile detect imageCheck pdfParse buffer claimed = imageCheck buffer mime) ∨
      (mime = "application/pdf" ∧
        validateFile detect imageCheck pdfParse buffer claimed =
          validatePDF (pdfParse buffer) buffer)) := by
  refine ⟨?_, ?_, ?_, ?_, ?_⟩
  · intro h
    simp [validateFile, h]
  · intro h hd
    simp [validateFile, Nat.not_lt.mpr h, hd]
  · intro mime h hd hmem
    simp [validateFile, Nat.not_lt.mpr h, hd, hmem]
  · intro mime h hd hmem hne
    simp [validateFile, Nat.not_lt.mpr h, hd, hmem, hne]
  · intro mime h hd hmem heq
    have hcases : mime = "image/png" ∨ mime = "image/jpeg" ∨ mime = "image/tiff" ∨
        mime = "image/bmp" ∨ mime = "image/webp" ∨ mime = "application/pdf" := by
      simpa [allowedTypes] using hmem
    rcases hcases with rfl | rfl | rfl | rfl | rfl | rfl
    · refine Or.inl ⟨by decide, ?_⟩
      have hS : strStarts ("image/png") ("image/") = true := by decide
      simp [validateFile, Nat.not_lt.mpr h, hd, hmem, heq, hS]
    · refine Or.inl ⟨by decide, ?_⟩
      have hS : strStarts ("image/jpeg") ("image/") = true := by decide
      simp [validateFile, Nat.not_lt.mpr h, hd, hmem, heq, hS]
    · refine Or.inl ⟨by decide, ?_⟩
      have hS : strStarts ("image/tiff") ("image/") = true := by decide
      simp [validateFile, Nat.not_lt.mpr h, hd, hmem, heq, hS]
    · refine Or.inl ⟨by decide, ?_⟩
      have hS : strStarts ("image/bmp") ("image/") = true := by decide
      simp [validateFile, Nat.not_lt.mpr h, hd, hmem, heq, hS]
    · refine Or.inl ⟨by decide, ?_⟩
      have hS : strStarts ("image/webp") ("image/") = true := by decide
      simp [validateFile, Nat.not_lt.mpr h, hd, hmem, heq, hS]
    · refine Or.inr ⟨rfl, ?_⟩
      have hS : strStarts ("application/pdf") ("image/") = false := by decide
      simp [validateFile, Nat.not_lt.mpr h, hd, hmem, heq, hS]

/-- C3 witness: ordering evaluated concretely. A spoofed buffer claimed as PNG
but detected as JPEG fails with the mismatch error even though the image check
would accept, and an oversized buffer fails with the size error even though
detection would fail. -/
theorem validateFile_order_witness :
    validateFile (fun _ => some ("image/jpeg"))
      (fun b m => Except.ok (m, b)) (fun _ => PdfParse.failed "nope")
      [0xFF, 0xD8, 0xFF] "image/png" =
      Except.error (ValidationError.typeMismatch "image/png" "image/jpeg") :=
  (validateFile_order (fun _ => some ("image/jpeg"))
      (fun b m => Except.ok (m, b)) (fun _ => PdfParse.failed "nope")
      [0xFF, 0xD8, 0xFF] "image/png").2.2.2.1
    "image/jpeg" (by decide) rfl (by decide) (by decide)

/-- Helper: validatePDF accepts exactly the parsed documents whose page count
lies between 1 and 500. -/
theorem validatePDF_ok_iff (parse : PdfParse) (buffer : List Nat) :
    isValidResult (validatePDF parse buffer) = true ↔
      ∃ n, parse = PdfParse.parsed n ∧ 1 ≤ n ∧ n ≤ 500 := by
  cases parse with
  | parsed n =>
      constructor
      · intro hvalid
        simp only [validatePDF, ite_self] at hvalid
        by_cases hz : n = 0
        · simp [hz, isValidResult] at hvalid
        · by_cases hg : n > maxPdfPages
          · simp [hz, hg, isValidResult] at hvalid
          · unfold maxPdfPages at hg
            exact ⟨n, rfl, by omega, by omega⟩
      · rintro ⟨m, hm, h1, h500⟩
        have hnm : n = m := by injection hm
        subst hnm
        have hz : ¬ (n = 0) := by omega
        have hg : ¬ (n > maxPdfPages) := by unfold maxPdfPages; omega
        simp [validatePDF, ite_self, hz, hg, isValidResult]
  | failed msg =>
      constructor
      · intro hvalid
        by_cases he : strContains msg ("encryption") = true <;>
          simp [validatePDF, he, isValidResult] at hvalid
      · rintro ⟨m, hm, _⟩
        exact PdfParse.noConfusion hm

/-- C4: for a buffer that passes the generic gates and is detected as a PDF,
validateFile delegates to validatePDF; validation passes iff the parse
succeeded with a page count between 1 and 500; a parse failure mentioning
encryption yields the encrypted-PDF error; and JavaScript indicators in the
first 1 MiB are not fatal: a parsed in-bounds PDF passes even when the scan
finds them. -/
theorem validatePDF_spec (detect : List Nat → Option String)
    (imageCheck : List Nat → String → VResult)
    (pdfParse : List Nat → PdfParse)
    (buffer : List Nat) (claimed : String)
    (hsize : buffer.length ≤ maxFileSize)
    (hdet : detect buffer = some ("application/pdf"))
    (hclaim : normalizeMimeType claimed = "application/pdf") :
    (validateFile detect imageCheck pdfParse buffer claimed =
      validatePDF (pdfParse buffer) buffer) ∧
    (isValidResult (validatePDF (pdfParse buffer) buffer) = true ↔
      ∃ n, pdfParse buffer = PdfParse.parsed n ∧ 1 ≤ n ∧ n ≤ 500) ∧
    (∀ msg, pdfParse buffer = PdfParse.failed msg → strContains msg ("encryption") = true →
      validatePDF (pdfParse buffer) buffer = Except.error ValidationError.pdfEncrypted) ∧
    (∀ n, pdfParse buffer = PdfParse.parsed n → 1 ≤ n → n ≤ 500 →
      checkPDFForJavaScript buffer = true →
      isValidResult (validateFile detect imageCheck pdfParse buffer claimed) = true) := by
  have hdeleg : validateFile detect imageCheck pdfParse buffer claimed =
      validatePDF (pdfParse buffer) buffer := by
    have heq : normalizeMimeType claimed = normalizeMimeType ("application/pdf") := by
      rw [hclaim]; rfl
    have hmem : ("application/pdf" : String) ∈ allowedTypes := by decide
    have hS : strStarts ("application/pdf") ("image/") = false := by decide
    simp [validateFile, Nat.not_lt.mpr hsize, hdet, hmem, heq, hS]
  refine ⟨hdeleg, validatePDF_ok_iff (pdfParse buffer) buffer, ?_, ?_⟩
  · intro msg hp he
    rw [hp]
    simp [validatePDF, he]
  · intro n hp h1 h500 _
    rw [hdeleg]
    exact (validatePDF_ok_iff (pdfParse buffer) buffer).mpr ⟨n, hp, h1, h500⟩

/-- C4 witness: a small buffer containing the /JS token, detected as PDF and
parsing to three pages, passes validation; and an encrypted parse failure is
reported as the encrypted-PDF error. -/
theorem validatePDF_spec_witness :
    isValidResult (validateFile (fun _ => some ("application/pdf"))
      (fun b m => Except.ok (m, b)) (fun _ => PdfParse.parsed 3)
      (strBytes ("%PDF /JS x")) "application/pdf") = true ∧
    validatePDF (PdfParse.failed "document is protected by encryption") [] =
      Except.error ValidationError.pdfEncrypted :=
  ⟨(validatePDF_spec (fun _ => some ("application/pdf"))
      (fun b m => Except.ok (m, b)) (fun _ => PdfParse.parsed 3)
      (strBytes ("%PDF /JS x")) "application/pdf"
      (by decide) rfl (by decide)).2.2.2 3 rfl (by decide) (by decide) (by decide),
   (validatePDF_spec (fun _ => some ("application/pdf"))
      (fun b m => Except.ok (m, b))
      (fun _ => PdfParse.failed "document is protected by encryption")
      [] "application/pdf" (by decide) rfl (by decide)).2.2.1
      "document is protected by encryption" rfl (by decide)⟩

/-- Decimal digit test (JS regex d class), stated on character codes. -/
def isDigitChar (c : Char) : Bool := 48 ≤ c.toNat && c.toNat ≤ 57

/-- Upper-case ASCII letter test (regex class A to Z), stated on character
codes. -/
def isUpperAZ (c : Char) : Bool := 65 ≤ c.toNat && c.toNat ≤ 90

/-- Whitespace class of JS regexes (the ASCII part; the entity strings involved
are ASCII). -/
def jsSpaceChar (c : Char) : Bool :=
  c = ' ' || c = '\t' || c = '\n' || c = '\r' || c = '\x0b' || c = '\x0c'

/-- Space removal applied to IBAN candidates (value.replace of the whitespace
class with nothing). -/
def stripSpaces (s : String) : String :=
  String.mk (s.toList.filter (fun c => ! jsSpaceChar c))

/-- Full-string match of the BTW pattern: two upper-case letters at positions
0-1, nine digits at positions 2-10, the letter B at position 11, two digits at
positions 12-13, total length 14. -/
def btwShaped (s : String) : Bool :=
  let cs := s.toList
  (cs.length = 14) && (cs.take 2).all isUpperAZ && ((cs.drop 2).take 9).all isDigitChar &&
  ((cs.drop 11).take 1 == ['B']) && ((cs.drop 12).all isDigitChar)

/-- Suffix test of the IBAN exclusion regex: the string ends in B followed by
two digits. -/
def endsWithBdd (s : String) : Bool :=
  match s.toList.reverse with
  | e2 :: e1 :: k :: _ => isDigitChar e2 && isDigitChar e1 && k = 'B'
  | _ => false

/-- IBAN acceptance filter applied to a regex candidate (extractNotableData,
IBAN pass): strip spaces, then require length between 15 and 34 and not the
BTW-shaped B-digit-digit ending. -/
def ibanAccepted (raw : String) : Bool :=
  let value := stripSpaces raw
  (15 ≤ value.length && value.length ≤ 34) && ! endsWithBdd value

/-- Extracted entity: a type tag and the matched value. -/
structure Entity where
  type : String
  value : String
deriving DecidableEq, Repr

/-- BTW pass of extractNotableData: every BTW-shaped candidate is pushed as a
vat entity. -/
def btwEntities (candidates : List String) : List Entity :=
  candidates.filterMap (fun c => if btwShaped c then some ⟨"vat", c⟩ else none)

/-- IBAN pass of extractNotableData: every accepted candidate is pushed as an
iban entity carrying its space-stripped value. -/
def ibanEntities (candidates : List String) : List Entity :=
  candidates.filterMap
    (fun c => if ibanAccepted c then some ⟨"iban", stripSpaces c⟩ else none)

/-- Entity list produced by the BTW and IBAN passes in source order: the BTW
pass runs first, so its entities precede all IBAN entities. -/
def btwIbanPass (btwCands ibanCands : List String) : List Entity :=
  btwEntities btwCands ++ ibanEntities ibanCands

/-- Helper: a BTW-shaped string has exactly 14 characters. -/
theorem btwShaped_length (s : String) (h : btwShaped s = true) : s.length = 14 := by
  unfold btwShaped at h
  simp only [Bool.and_eq_true] at h
  have : s.toList.length = 14 := of_decide_eq_true h.1.1.1.1
  calc s.length = s.toList.length := rfl
    _ = 14 := this

/-- Helper: stripping spaces never lengthens a string. -/
theorem stripSpaces_length_le (s : String) : (stripSpaces s).length ≤ s.length := by
  have h1 : (stripSpaces s).length =
      (s.toList.filter (fun c => ! jsSpaceChar c)).length := rfl
  have h2 : s.length = s.toList.length := rfl
  rw [h1, h2]
  exact List.length_filter_le _ _

/-- C9: a BTW-shaped string is never classified as IBAN and, when it is a BTW
candidate, is classified as VAT. Its space-stripped form has 14 characters,
under the IBAN minimum of 15 (and it also ends in B-digit-digit), so the IBAN
filter rejects it; the BTW pass precedes the IBAN pass and pushes a vat entity
for it; and no iban entity produced by the passes can carry it as value. -/
theorem btw_never_iban (s : String) (btwCands ibanCands : List String)
    (h : btwShaped s = true) :
    ibanAccepted s = false ∧
    (s ∈ btwCands → (⟨"vat", s⟩ : Entity) ∈ btwIbanPass btwCands ibanCands) ∧
    (∀ e ∈ btwIbanPass btwCands ibanCands, e.type = "iban" → e.value ≠ s) := by
  have hlen : s.length = 14 := btwShaped_length s h
  have hstrip : (stripSpaces s).length ≤ 14 := hlen ▸ stripSpaces_length_le s
  refine ⟨?_, ?_, ?_⟩
  · unfold ibanAccepted
    have h15 : decide (15 ≤ (stripSpaces s).length) = false := by
      simp only [decide_eq_false_iff_not]
      omega
    simp [h15]
  · intro hmem
    unfold btwIbanPass
    refine List.mem_append.mpr (Or.inl ?_)
    unfold btwEntities
    exact List.mem_filterMap.mpr ⟨s, hmem, by rw [if_pos h]⟩
  · intro e he htype
    unfold btwIbanPass at he
    rcases List.mem_append.mp he with hb | hi
    · unfold btwEntities at hb
      obtain ⟨c, _, hc⟩ := List.mem_filterMap.mp hb
      by_cases hbtw : btwShaped c = true
      · rw [if_pos hbtw] at hc
        injection hc with hc'
        rw [← hc'] at htype
        have hvi : ("vat" : String) = "iban" := htype
        exact absurd hvi (by decide)
      · rw [if_neg hbtw] at hc
        exact Option.noConfusion hc
    · unfold ibanEntities at hi
      obtain ⟨c, _, hc⟩ := List.mem_filterMap.mp hi
      by_cases hacc : ibanAccepted c = true
      · rw [if_pos hacc] at hc
        injection hc with hc'
        intro hval
        have h15 : 15 ≤ (stripSpaces c).length := by
          unfold ibanAccepted at hacc
          have := (Bool.and_eq_true _ _).mp hacc
          have h1 := (Bool.and_eq_true _ _).mp this.1
          exact of_decide_eq_true h1.1
        have hv : e.value = stripSpaces c := by rw [← hc']
        rw [hv] at hval
        have : (stripSpaces c).length = s.length := by rw [hval]
        omega
      · rw [if_neg hacc] at hc
        exact Option.noConfusion hc

/-- C9 witness: the Dutch VAT number NL123456789B01 is BTW-shaped; it is
rejected by the IBAN filter and classified as vat when present among the BTW
candidates. -/
theorem btw_never_iban_witness :
    ibanAccepted ("NL123456789B01") = false ∧
    (⟨"vat", "NL123456789B01"⟩ : Entity) ∈
      btwIbanPass ["NL123456789B01"] ["NL123456789B01"] :=
  ⟨(btw_never_iban "NL123456789B01" ["NL123456789B01"] ["NL123456789B01"]
      (by decide)).1,
   (btw_never_iban "NL123456789B01" ["NL123456789B01"] ["NL123456789B01"]
      (by decide)).2.1 (by decide)⟩

/-- Regular expressions over character predicates, used to embed the JS
regex literals of the enrichment code. -/
inductive RE where
  | nul
  | eps
  | chr (p : Char → Bool)
  | seq (a b : RE)
  | alt (a b : RE)
  | star (a : RE)

/-- Nullability: does the expression accept the empty string. -/
def nullable : RE → Bool
  | RE.nul => false
  | RE.eps => true
  | RE.chr _ => false
  | RE.seq a b => nullable a && nullable b
  | RE.alt a b => nullable a || nullable b
  | RE.star _ => true

/-- Smart sequencing (absorbs the empty and unit expressions). -/
def rseq : RE → RE → RE
  | RE.nul, _ => RE.nul
  | _, RE.nul => RE.nul
  | RE.eps, b => b
  | a, RE.eps => a
  | a, b => RE.seq a b

/-- Smart alternation (absorbs the empty expression). -/
def ralt : RE → RE → RE
  | RE.nul, b => b
  | a, RE.nul => a
  | a, b => RE.alt a b

/-- Brzozowski derivative with respect to one character. -/
def deriv : RE → Char → RE
  | RE.nul, _ => RE.nul
  | RE.eps, _ => RE.nul
  | RE.chr p, c => if p c then RE.eps else RE.nul
  | RE.seq a b, c =>
      if nullable a then ralt (rseq (deriv a c) b) (deriv b c)
      else rseq (deriv a c) b
  | RE.alt a b, c => ralt (deriv a c) (deriv b c)
  | RE.star a, c => rseq (deriv a c) (RE.star a)

/-- Full-match test by iterated derivatives. -/
def reMatchList (r : RE) : List Char → Bool
  | [] => nullable r
  | c :: cs => reMatchList (deriv r c) cs

/-- Full-match test on a string (the anchored JS regex test). -/
def reMatch (r : RE) (s : String) : Bool := reMatchList r s.toList

/-- Literal character. -/
def rchar (c : Char) : RE := RE.chr (fun d => d == c)

/-- Case-insensitive literal character (regex i flag). -/
def rcharIC (c : Char) : RE := RE.chr (fun d => d.toLower == c.toLower)

/-- Literal string. -/
def rlit (s : String) : RE := s.toList.foldr (fun c r => RE.seq (rchar c) r) RE.eps

/-- Case-insensitive literal string. -/
def rlitIC (s : String) : RE := s.toList.foldr (fun c r => RE.seq (rcharIC c) r) RE.eps

/-- One or more repetitions. -/
def rplus (r : RE) : RE := RE.seq r (RE.star r)

/-- Zero or one occurrence. -/
def ropt (r : RE) : RE := RE.alt RE.eps r

/-- Exactly n repetitions. -/
def rrep (r : RE) : Nat → RE
  | 0 => RE.eps
  | Nat.succ n => RE.seq r (rrep r n)

/-- At most n repetitions. -/
def rupto (r : RE) : Nat → RE
  | 0 => RE.eps
  | Nat.succ n => RE.alt RE.eps (RE.seq r (rupto r n))

/-- Any single character (regex dot with the s flag semantics; only used for
the unanchored ends of test patterns). -/
def anyChar : RE := RE.chr (fun _ => true)

/-- Word content types assigned by enrichment. -/
inductive ContentType where
  | text
  | number
  | date
  | email
  | url
  | currency
  | phone
deriving DecidableEq, Repr

/-- Character class of the email pattern: anything but whitespace and the at
sign. -/
def notSpaceAt : Char → Bool := fun c => ! (jsSpaceChar c || c == '@')

/-- Email pattern: nonempty local part, at sign, nonempty domain containing a
dot with a nonempty tail. -/
def emailRe : RE :=
  RE.seq (rplus (RE.chr notSpaceAt))
    (RE.seq (rchar ('@'))
      (RE.seq (rplus (RE.chr notSpaceAt))
        (RE.seq (rchar ('.')) (rplus (RE.chr notSpaceAt)))))

/-- URL pattern: case-insensitive http or https scheme with separator, or a
www. start; anchored only at the start, so any tail is allowed. -/
def urlRe : RE :=
  RE.seq
    (RE.alt
      (RE.seq (rlitIC "http") (RE.seq (ropt (rcharIC ('s'))) (rlit "://")))
      (rlitIC "www."))
    (RE.star anyChar)

/-- Character class of the phone pattern: digits, whitespace, dash,
parentheses, plus. -/
def phoneChar : Char → Bool := fun c =>
  isDigitChar c || jsSpaceChar c || c == '-' || c == '(' || c == ')' || c == '+'

/-- Phone pattern: seven or more characters from the phone class. -/
def phoneRe : RE := RE.seq (rrep (RE.chr phoneChar) 7) (RE.star (RE.chr phoneChar))

/-- Unanchored test for three or more consecutive digits. -/
def threeDigitsRe : RE :=
  RE.seq (RE.star anyChar) (RE.seq (rrep (RE.chr isDigitChar) 3) (RE.star anyChar))

/-- Currency symbol class. -/
def currencySym : Char → Bool := fun c => c == '$' || c == '€' || c == '£' || c == '¥'

/-- Group of a separator (comma or dot) followed by digits. -/
def sepDigits : RE :=
  RE.seq (RE.chr (fun c => c == ',' || c == '.')) (rplus (RE.chr isDigitChar))

/-- Currency pattern: optional symbol, optional whitespace, digits, separator
groups, optional dot and two decimals. -/
def currencyRe : RE :=
  RE.seq (ropt (RE.chr currencySym))
    (RE.seq (RE.star (RE.chr jsSpaceChar))
      (RE.seq (rplus (RE.chr isDigitChar))
        (RE.seq (RE.star sepDigits)
          (ropt (RE.seq (rchar ('.')) (rrep (RE.chr isDigitChar) 2))))))

/-- Slash or dash date separator. -/
def sepSlashDash : RE := RE.chr (fun c => c == '/' || c == '-')

/-- One or two digits. -/
def d12 : RE := RE.seq (RE.chr isDigitChar) (ropt (RE.chr isDigitChar))

/-- Two to four digits. -/
def d24 : RE :=
  RE.seq (RE.chr isDigitChar) (RE.seq (RE.chr isDigitChar) (rupto (RE.chr isDigitChar) 2))

/-- First date pattern: d{1,2} sep d{1,2} sep d{2,4}. -/
def dateRe1 : RE := RE.seq d12 (RE.seq sepSlashDash (RE.seq d12 (RE.seq sepSlashDash d24)))

/-- Second date pattern: d{4} sep d{1,2} sep d{1,2}. -/
def dateRe2 : RE :=
  RE.seq (rrep (RE.chr isDigitChar) 4)
    (RE.seq sepSlashDash (RE.seq d12 (RE.seq sepSlashDash d12)))

/-- Number pattern: digits followed by separator groups. -/
def numberRe : RE := RE.seq (rplus (RE.chr isDigitChar)) (RE.star sepDigits)

/-- JS String.trim on the character list (ASCII whitespace). -/
def jsTrim (s : String) : String :=
  String.mk (((s.toList.dropWhile jsSpaceChar).reverse.dropWhile jsSpaceChar).reverse)

/-- Content-type detection (OCRService.detectContentType, lines 168-191): trim,
then test the patterns in source order with the first hit winning; the phone
branch additionally requires three consecutive digits; two date patterns share
the date branch. -/
def detectContentType (text : String) : ContentType :=
  let trimmed := jsTrim text
  if reMatch emailRe trimmed then ContentType.email
  else if reMatch urlRe trimmed then ContentType.url
  else if reMatch phoneRe trimmed && reMatch threeDigitsRe trimmed then ContentType.phone
  else if reMatch currencyRe trimmed then ContentType.currency
  else if reMatch dateRe1 trimmed then ContentType.date
  else if reMatch dateRe2 trimmed then ContentType.date
  else if reMatch numberRe trimmed then ContentType.number
  else ContentType.text

/-- JS Math.round: floor of the value plus one half. -/
def jsRound (q : ℚ) : ℤ := Int.floor (q + 1 / 2)

/-- Bounding box with derived width and height, in page pixels. -/
structure BBox where
  x0 : ℚ
  y0 : ℚ
  x1 : ℚ
  y1 : ℚ
  width : ℚ
  height : ℚ
deriving DecidableEq, Repr

/-- Raw OCR word before enrichment: text, confidence, corner coordinates. -/
structure RawWord where
  text : String
  confidence : ℚ
  x0 : ℚ
  y0 : ℚ
  x1 : ℚ
  y1 : ℚ
deriving DecidableEq, Repr

/-- Enriched word. -/
structure Word where
  text : String
  confidence : ℚ
  bbox : BBox
  fontSize : ℤ
  contentType : ContentType
deriving DecidableEq, Repr

/-- Font size estimation (estimateFontSize): Math.round of bbox.height times
0.75. -/
def estimateFontSize (bbox : BBox) : ℤ := jsRound (bbox.height * (3 / 4))

/-- Word enrichment step of enrichBlocks (lines 1159-1172): build the bounding
box with derived width and height, then attach the estimated font size and the
detected content type. -/
def enrichWord (w : RawWord) : Word :=
  let wordBbox : BBox := ⟨w.x0, w.y0, w.x1, w.y1, w.x1 - w.x0, w.y1 - w.y0⟩
  ⟨w.text, w.confidence, wordBbox, estimateFontSize wordBbox, detectContentType w.text⟩

/-- First-match dispatch over an ordered list of content-type tests, defaulting
to plain text; this is the dispatch the claim describes. -/
def firstMatch : List (ContentType × (String → Bool)) → String → ContentType
  | [], _ => ContentType.text
  | (t, p) :: rest, s => if p s then t else firstMatch rest s

/-- Ordered tests exactly as the claim lists them: email, url, phone (with the
three-consecutive-digits side condition), currency, date (either variant),
number. -/
def claimedTests : List (ContentType × (String → Bool)) :=
  [(ContentType.email, fun s => reMatch emailRe s),
   (ContentType.url, fun s => reMatch urlRe s),
   (ContentType.phone, fun s => reMatch phoneRe s && reMatch threeDigitsRe s),
   (ContentType.currency, fun s => reMatch currencyRe s),
   (ContentType.date, fun s => reMatch dateRe1 s || reMatch dateRe2 s),
   (ContentType.number, fun s => reMatch numberRe s)]

/-- C8: for every word, enrichment computes the font size as the rounding of
three quarters of the bounding-box height, and assigns the content type by the
first matching anchored pattern in the claimed order on the trimmed text. -/
theorem word_enrichment_spec (w : RawWord) :
    (enrichWord w).fontSize = jsRound ((w.y1 - w.y0) * (3 / 4)) ∧
    (enrichWord w).contentType = firstMatch claimedTests (jsTrim w.text) := by
  constructor
  · rfl
  · show detectContentType w.text = firstMatch claimedTests (jsTrim w.text)
    unfold detectContentType
    simp only [claimedTests, firstMatch]
    split_ifs <;> simp_all

/-- Sanity evaluations of the embedded patterns on concrete strings, matching
the behavior of the source regexes (note that every plain number already
matches the currency pattern, whose symbol is optional, so the number branch
is shadowed). -/
theorem detectContentType_examples :
    detectContentType ("john@mail.example") = ContentType.email ∧
    detectContentType ("https://example.com/x") = ContentType.url ∧
    detectContentType ("WWW.example.com") = ContentType.url ∧
    detectContentType ("+31 6 123-4567") = ContentType.phone ∧
    detectContentType ("$1,234.56") = ContentType.currency ∧
    detectContentType ("12/31/2020") = ContentType.date ∧
    detectContentType ("2020/12/31") = ContentType.date ∧
    detectContentType ("2020-12-31") = ContentType.phone ∧
    detectContentType ("123456") = ContentType.currency ∧
    detectContentType ("hello") = ContentType.text := by
  refine ⟨?_, ?_, ?_, ?_, ?_, ?_, ?_, ?_, ?_, ?_⟩ <;> decide

/-- Sanity evaluation of the font-size estimate: a 16-pixel-high box yields
font size 12, and a 15-pixel-high box yields 11 with rounding half up. -/
theorem estimateFontSize_examples :
    estimateFontSize ⟨0, 0, 10, 16, 10, 16⟩ = 12 ∧
    estimateFontSize ⟨0, 0, 10, 15, 10, 15⟩ = 11 ∧
    jsRound (23 / 2) = 12 := by
  refine ⟨?_, ?_, ?_⟩
  · show jsRound ((16 : ℚ) * (3 / 4)) = 12
    unfold jsRound
    rw [Int.floor_eq_iff]
    norm_num
  · show jsRound ((15 : ℚ) * (3 / 4)) = 11
    unfold jsRound
    rw [Int.floor_eq_iff]
    norm_num
  · unfold jsRound
    rw [Int.floor_eq_iff]
    norm_num

/-- ASCII lower-casing of a hostname (JS toLowerCase on the character list). -/
def lowerStr (s : String) : String := String.mk (s.toList.map Char.toLower)

/-- Hostnames blocked literally by the webhook URL validator (the bracketed
IPv6 loopback covers the WHATWG hostname spelling). -/
def blockedHostnames : List String := ["localhost", "127.0.0.1", "0.0.0.0", "::1", "[::1]"]

/-- The 172.(16-31). test of the validator (regex caret 172 dot, 1 with 6-9 or
2 with a digit or 3 with 0-1, dot). -/
def matches172Range (hst : String) : Bool :=
  strStarts hst ("172.") &&
    (match hst.toList.drop 4 with
     | x :: y :: z :: _ =>
         (z == '.') &&
         ((x == '1' && (54 ≤ y.toNat && y.toNat ≤ 57)) ||
          (x == '2' && isDigitChar y) ||
          (x == '3' && (y == '0' || y == '1')))
     | _ => false)

/-- Hostname rejection of the webhook URL validator (zod refine): lower-case
the hostname, reject exact members of the blocked list, then reject the
192.168. / 10. / 172.(16-31). / 169.254. string prefixes. -/
def webhookHostnameRejected (host : String) : Bool :=
  let hl := lowerStr host
  blockedHostnames.contains hl ||
    (strStarts hl ("192.168.") || strStarts hl ("10.") ||
     matches172Range hl || strStarts hl ("169.254."))

/-- Parsed URL as the validator sees it: scheme and hostname. -/
structure ParsedUrl where
  scheme : String
  hostname : String
deriving DecidableEq, Repr

/-- Webhook URL validator: accept unless the hostname is rejected; the scheme
is never consulted (http and https are both accepted). -/
def webhookUrlValidator (u : ParsedUrl) : Bool := ! webhookHostnameRejected u.hostname

/-- Value of one canonical decimal octet: one digit, or two digits not leading
with zero, or three digits not leading with zero and at most 255. -/
def octetValue : List Char → Option Nat
  | [x] => if isDigitChar x then some (x.toNat - 48) else none
  | [x, y] =>
      if isDigitChar x && isDigitChar y && ! (x == '0') then
        some ((x.toNat - 48) * 10 + (y.toNat - 48))
      else none
  | [x, y, z] =>
      if isDigitChar x && isDigitChar y && isDigitChar z && ! (x == '0') then
        if (x.toNat - 48) * 100 + (y.toNat - 48) * 10 + (z.toNat - 48) ≤ 255 then
          some ((x.toNat - 48) * 100 + (y.toNat - 48) * 10 + (z.toNat - 48))
        else none
      else none
  | _ => none

/-- Split a character list at every dot. -/
def splitOnDot : List Char → List (List Char)
  | [] => [[]]
  | c :: rest =>
      let r := splitOnDot rest
      if c = '.' then [] :: r
      else
        match r with
        | g :: gs => (c :: g) :: gs
        | [] => [[c]]

/-- Parse a hostname as a canonical dotted-quad IPv4 literal. -/
def parseIPv4 (h : String) : Option (Nat × Nat × Nat × Nat) :=
  match splitOnDot h.toList with
  | [a, b, c, d] =>
      match octetValue a, octetValue b, octetValue c, octetValue d with
      | some va, some vb, some vc, some vd => some (va, vb, vc, vd)
      | _, _, _, _ => none
  | _ => none

/-- CIDR membership of the claim: hostname parses as an IPv4 literal lying in
10.0.0.0/8, 172.16.0.0/12, 192.168.0.0/16 or 169.254.0.0/16. -/
def inPrivateRanges (h : String) : Bool :=
  match parseIPv4 h with
  | some (a, b, _, _) =>
      a == 10 || (a == 172 && (16 ≤ b && b ≤ 31)) || (a == 192 && b == 168) ||
      (a == 169 && b == 254)
  | none => false

/-- Rejection predicate exactly as the claim words it: one of the four listed
literal hostnames, or inside one of the four CIDR blocks. -/
def claimRejected (h : String) : Bool :=
  (["localhost", "127.0.0.1", "0.0.0.0", "::1"].contains h) || inPrivateRanges h

/-- C5 counterexample: the validator matches string prefixes of the hostname,
not CIDR blocks, so the domain name 10.example.com (which lies in no CIDR
block) is rejected; the claimed iff fails there. -/
theorem webhook_policy_not_cidr :
    webhookHostnameRejected ("10.example.com") = true ∧
    claimRejected ("10.example.com") = false ∧
    webhookHostnameRejected ("10.example.com") ≠ claimRejected ("10.example.com") := by
  refine ⟨by decide, by decide, by decide⟩

/-- Characters are determined by their code points. -/
theorem charToNat_inj (a b : Char) (h : a.toNat = b.toNat) : a = b :=
  Char.ext (UInt32.toNat.inj h)

/-- Join character groups with dots (inverse of splitOnDot). -/
def joinDots : List (List Char) → List Char
  | [] => []
  | [g] => g
  | g :: g2 :: gs => g ++ '.' :: joinDots (g2 :: gs)

/-- Helper: splitting never yields an empty group list. -/
theorem splitOnDot_ne_nil : ∀ cs : List Char, splitOnDot cs ≠ [] := by
  intro cs
  induction cs with
  | nil => simp [splitOnDot]
  | cons c rest ih =>
      unfold splitOnDot
      by_cases hc : c = '.'
      · simp [hc]
      · simp only [hc, if_false]
        rcases hr : splitOnDot rest with _ | ⟨g, gs⟩
        · exact absurd hr ih
        · simp

/-- Helper: joining the split groups rebuilds the original list. -/
theorem splitOnDot_join : ∀ cs : List Char, joinDots (splitOnDot cs) = cs := by
  intro cs
  induction cs with
  | nil => rfl
  | cons c rest ih =>
      unfold splitOnDot
      by_cases hc : c = '.'
      · subst hc
        simp only [if_pos rfl]
        rcases hr : splitOnDot rest with _ | ⟨g, gs⟩
        · exact absurd hr (splitOnDot_ne_nil rest)
        · rw [hr] at ih
          show joinDots ([] :: g :: gs) = '.' :: rest
          rw [joinDots]
          simp [ih]

      · simp only [hc, if_false]
        rcases hr : splitOnDot rest with _ | ⟨g, gs⟩
        · exact absurd hr (splitOnDot_ne_nil rest)
        · rw [hr] at ih
          cases gs with
          | nil =>
              simp only [joinDots] at ih ⊢
              simp [ih]
          | cons g2 gs2 =>
              rw [joinDots] at ih ⊢
              simp [← ih]

/-- Helper: no group produced by splitting contains a dot. -/
theorem splitOnDot_no_dot : ∀ (cs : List Char) (g : List Char), g ∈ splitOnDot cs →
    ∀ c ∈ g, c ≠ '.' := by
  intro cs
  induction cs with
  | nil =>
      intro g hg c hc
      simp [splitOnDot] at hg
      subst hg
      exact absurd hc (List.not_mem_nil c)
  | cons c0 rest ih =>
      intro g hg c hc
      unfold splitOnDot at hg
      by_cases hc0 : c0 = '.'
      · simp only [hc0, if_pos rfl] at hg
        rcases List.mem_cons.mp hg with rfl | hmem
        · exact absurd hc (List.not_mem_nil c)
        · exact ih g hmem c hc
      · simp only [hc0, if_false] at hg
        rcases hr : splitOnDot rest with _ | ⟨g0, gs⟩
        · exact absurd hr (splitOnDot_ne_nil rest)
        · rw [hr] at hg
          rcases List.mem_cons.mp hg with rfl | hmem
          · rcases List.mem_cons.mp hc with rfl | hmem2
            · exact hc0
            · exact ih g0 (hr ▸ List.mem_cons_self g0 gs) c hmem2
          · exact ih g (hr ▸ List.mem_cons_of_mem g0 hmem) c hc

/-- Helper: shape inversion for canonical octets, with code-point bounds. -/
theorem octetValue_inv (g : List Char) (v : Nat) (hv : octetValue g = some v) :
    (∃ x, g = [x] ∧ 48 ≤ x.toNat ∧ x.toNat ≤ 57 ∧ v = x.toNat - 48) ∨
    (∃ x y, g = [x, y] ∧ 49 ≤ x.toNat ∧ x.toNat ≤ 57 ∧ 48 ≤ y.toNat ∧ y.toNat ≤ 57 ∧
      v = (x.toNat - 48) * 10 + (y.toNat - 48)) ∨
    (∃ x y z, g = [x, y, z] ∧ 49 ≤ x.toNat ∧ x.toNat ≤ 57 ∧ 48 ≤ y.toNat ∧
      y.toNat ≤ 57 ∧ 48 ≤ z.toNat ∧ z.toNat ≤ 57 ∧ v ≤ 255 ∧
      v = (x.toNat - 48) * 100 + (y.toNat - 48) * 10 + (z.toNat - 48)) := by
  have hzero : ('0' : Char).toNat = 48 := by decide
  rcases g with _ | ⟨x, _ | ⟨y, _ | ⟨z, _ | ⟨w, t⟩⟩⟩⟩
  · exact absurd hv (by simp [octetValue])
  · left
    by_cases hd : isDigitChar x = true
    · have hb := hd
      unfold isDigitChar at hb
      rw [Bool.and_eq_true, decide_eq_true_iff, decide_eq_true_iff] at hb
      simp only [octetValue, hd, if_true] at hv
      injection hv with hv'
      exact ⟨x, rfl, hb.1, hb.2, hv'.symm⟩
    · simp [octetValue, hd] at hv
  · right; left
    by_cases hd : (isDigitChar x && isDigitChar y && ! (x == '0')) = true
    · have hb := hd
      rw [Bool.and_eq_true, Bool.and_eq_true] at hb
      obtain ⟨⟨hx, hy⟩, hne⟩ := hb
      unfold isDigitChar at hx hy
      rw [Bool.and_eq_true, decide_eq_true_iff, decide_eq_true_iff] at hx hy
      have hx49 : 49 ≤ x.toNat := by
        rcases Nat.lt_or_ge x.toNat 49 with hlt | hge
        · exfalso
          have h48 : x.toNat = 48 := by omega
          have : x = '0' := charToNat_inj x '0' (by rw [h48, hzero])
          rw [this] at hne
          simp at hne
        · exact hge
      simp only [octetValue, hd, if_true] at hv
      injection hv with hv'
      exact ⟨x, y, rfl, hx49, hx.2, hy.1, hy.2, hv'.symm⟩
    · simp [octetValue, hd] at hv
  · right; right
    by_cases hd : (isDigitChar x && isDigitChar y && isDigitChar z && ! (x == '0')) = true
    · have hb := hd
      rw [Bool.and_eq_true, Bool.and_eq_true, Bool.and_eq_true] at hb
      obtain ⟨⟨⟨hx, hy⟩, hz⟩, hne⟩ := hb
      unfold isDigitChar at hx hy hz
      rw [Bool.and_eq_true, decide_eq_true_iff, decide_eq_true_iff] at hx hy hz
      have hx49 : 49 ≤ x.toNat := by
        rcases Nat.lt_or_ge x.toNat 49 with hlt | hge
        · exfalso
          have h48 : x.toNat = 48 := by omega
          have : x = '0' := charToNat_inj x '0' (by rw [h48, hzero])
          rw [this] at hne
          simp at hne
        · exact hge
      by_cases h255 : (x.toNat - 48) * 100 + (y.toNat - 48) * 10 + (z.toNat - 48) ≤ 255
      · simp only [octetValue, hd, if_true, h255] at hv
        injection hv with hv'
        exact ⟨x, y, z, rfl, hx49, hx.2, hy.1, hy.2, hz.1, hz.2, hv' ▸ h255, hv'.symm⟩
      · simp [octetValue, hd, h255] at hv
    · simp [octetValue, hd] at hv
  · exact absurd hv (by simp [octetValue])

/-- Helper: inversion of a successful IPv4 parse into the four dot-free
groups and their octet values. -/
theorem parseIPv4_inv (h : String) (a b c d : Nat)
    (hp : parseIPv4 h = some (a, b, c, d)) :
    ∃ ga gb gc gd, splitOnDot h.toList = [ga, gb, gc, gd] ∧
      octetValue ga = some a ∧ octetValue gb = some b ∧
      octetValue gc = some c ∧ octetValue gd = some d := by
  unfold parseIPv4 at hp
  rcases hsp : splitOnDot h.toList with _ | ⟨ga, _ | ⟨gb, _ | ⟨gc, _ | ⟨gd, _ | ⟨ge, rest⟩⟩⟩⟩⟩ <;>
    rw [hsp] at hp
  · exact absurd hp (by simp)
  · exact absurd hp (by simp)
  · exact absurd hp (by simp)
  · exact absurd hp (by simp)
  · have hp2 : (match octetValue ga, octetValue gb, octetValue gc, octetValue gd with
        | some va, some vb, some vc, some vd => some (va, vb, vc, vd)
        | _, _, _, _ => none) = some (a, b, c, d) := hp
    clear hp
    refine ⟨ga, gb, gc, gd, rfl, ?_⟩
    rcases hva : octetValue ga with _ | va <;> rw [hva] at hp2
    · exact absurd hp2 (by simp)
    rcases hvb : octetValue gb with _ | vb <;> rw [hvb] at hp2
    · exact absurd hp2 (by simp)
    rcases hvc : octetValue gc with _ | vc <;> rw [hvc] at hp2
    · exact absurd hp2 (by simp)
    rcases hvd : octetValue gd with _ | vd <;> rw [hvd] at hp2
    · exact absurd hp2 (by simp)
    simp only [Option.some.injEq, Prod.mk.injEq] at hp2
    obtain ⟨h1, h2, h3, h4⟩ := hp2
    exact ⟨by rw [h1], by rw [h2], by rw [h3], by rw [h4]⟩
  · exact absurd hp (by simp)

/-- Helper: unfolding equation for the list prefix test. -/
theorem leadsWith_cons (p c : Char) (ps cs : List Char) :
    leadsWith (p :: ps) (c :: cs) = (p == c && leadsWith ps cs) := rfl

/-- Helper: the prefix 10. holds of the hostname exactly when the first octet
is 10. -/
theorem starts10_iff (hl : String) (a : Nat) (ga t : List Char)
    (hcs : hl.toList = ga ++ '.' :: t) (ha : octetValue ga = some a) :
    strStarts hl ("10.") = true ↔ a = 10 := by
  have hpat : ("10." : String).toList = ['1', '0', '.'] := rfl
  unfold strStarts
  rw [hpat, hcs]
  rcases octetValue_inv ga a ha with ⟨x, rfl, h1, h2, h3⟩ | ⟨x, y, rfl, h1, h2, h3, h4, h5⟩ |
    ⟨x, y, z, rfl, h1, h2, h3, h4, h5, h6, h7, h8⟩
  · simp only [List.cons_append, List.nil_append, leadsWith_cons, Bool.and_eq_true,
      beq_iff_eq]
    constructor
    · rintro ⟨-, hdot, -⟩
      exact absurd hdot (by decide)
    · intro h10
      exfalso
      omega
  · simp only [List.cons_append, List.nil_append, leadsWith_cons, Bool.and_eq_true,
      beq_iff_eq]
    constructor
    · rintro ⟨hx, hy, -⟩
      have hx' : x.toNat = 49 := by rw [← hx]; decide
      have hy' : y.toNat = 48 := by rw [← hy]; decide
      omega
    · intro h10
      have hx' : x = '1' := charToNat_inj x '1' (by
        have hx49 : x.toNat = 49 := by omega
        rw [hx49]; decide)
      have hy' : y = '0' := charToNat_inj y '0' (by
        have hy48 : y.toNat = 48 := by omega
        rw [hy48]; decide)
      rw [hx', hy']
      simp [leadsWith]
  · simp only [List.cons_append, List.nil_append, leadsWith_cons, Bool.and_eq_true,
      beq_iff_eq]
    constructor
    · rintro ⟨-, -, hdot, -⟩
      have hz : z.toNat = 46 := by rw [← hdot]; decide
      omega
    · intro h10
      exfalso
      omega

/-- Helper: matching three digit pattern characters and a dot against an octet
group followed by a dot holds exactly when the octet has the three-digit value
spelled by the pattern, with the rest of the pattern matching the rest of the
hostname. -/
theorem octetLeads_gen (g tail : List Char) (v : Nat) (hv : octetValue g = some v)
    (q1 q2 q3 : Char) (pat : List Char)
    (hq1 : 49 ≤ q1.toNat) (hq1b : q1.toNat ≤ 57)
    (hq2 : 48 ≤ q2.toNat) (hq2b : q2.toNat ≤ 57)
    (hq3 : 48 ≤ q3.toNat) (hq3b : q3.toNat ≤ 57) :
    leadsWith (q1 :: q2 :: q3 :: '.' :: pat) (g ++ '.' :: tail) = true ↔
      (v = (q1.toNat - 48) * 100 + (q2.toNat - 48) * 10 + (q3.toNat - 48) ∧
       leadsWith pat tail = true) := by
  rcases octetValue_inv g v hv with ⟨x, rfl, h1, h2, h3⟩ | ⟨x, y, rfl, h1, h2, h3, h4, h5⟩ |
    ⟨x, y, z, rfl, h1, h2, h3, h4, h5, h6, h7, h8⟩
  · simp only [List.cons_append, List.nil_append, leadsWith_cons, Bool.and_eq_true,
      beq_iff_eq]
    constructor
    · rintro ⟨-, hdot, -⟩
      have h46 : q2.toNat = ('.' : Char).toNat := congrArg Char.toNat hdot
      have : ('.' : Char).toNat = 46 := by decide
      omega
    · rintro ⟨hval, -⟩
      exfalso
      omega
  · simp only [List.cons_append, List.nil_append, leadsWith_cons, Bool.and_eq_true,
      beq_iff_eq]
    constructor
    · rintro ⟨-, -, hdot, -⟩
      have h46 : q3.toNat = ('.' : Char).toNat := congrArg Char.toNat hdot
      have : ('.' : Char).toNat = 46 := by decide
      omega
    · rintro ⟨hval, -⟩
      exfalso
      omega
  · simp only [List.cons_append, List.nil_append, leadsWith_cons, Bool.and_eq_true,
      beq_iff_eq]
    constructor
    · rintro ⟨hx, hy, hz, -, hrest⟩
      have hx' := congrArg Char.toNat hx
      have hy' := congrArg Char.toNat hy
      have hz' := congrArg Char.toNat hz
      exact ⟨by omega, hrest⟩
    · rintro ⟨hval, hrest⟩
      have hx' : x = q1 := charToNat_inj x q1 (by omega)
      have hy' : y = q2 := charToNat_inj y q2 (by omega)
      have hz' : z = q3 := charToNat_inj z q3 (by omega)
      rw [hx', hy', hz']
      simp [hrest]

/-- Helper: strings with equal character lists are equal. -/
theorem string_eq_of_toList_eq (s1 s2 : String) (h : s1.toList = s2.toList) : s1 = s2 := by
  cases s1 with
  | mk d1 =>
      cases s2 with
      | mk d2 =>
          have hd : d1 = d2 := h
          rw [hd]

/-- Helper: the only canonical octet of value 0 is the single digit 0. -/
theorem octet_zero (g : List Char) (h : octetValue g = some 0) : g = ['0'] := by
  rcases octetValue_inv g 0 h with ⟨x, rfl, h1, h2, h3⟩ | ⟨x, y, rfl, h1, h2, h3, h4, h5⟩ |
    ⟨x, y, z, rfl, h1, h2, h3, h4, h5, h6, h7, h8⟩
  · have hx : x = '0' := charToNat_inj x '0' (by
      have : x.toNat = 48 := by omega
      rw [this]; decide)
    rw [hx]
  · exfalso; omega
  · exfalso; omega

/-- Helper: the only canonical octet of value 1 is the single digit 1. -/
theorem octet_one (g : List Char) (h : octetValue g = some 1) : g = ['1'] := by
  rcases octetValue_inv g 1 h with ⟨x, rfl, h1, h2, h3⟩ | ⟨x, y, rfl, h1, h2, h3, h4, h5⟩ |
    ⟨x, y, z, rfl, h1, h2, h3, h4, h5, h6, h7, h8⟩
  · have hx : x = '1' := charToNat_inj x '1' (by
      have : x.toNat = 49 := by omega
      rw [this]; decide)
    rw [hx]
  · exfalso; omega
  · exfalso; omega

/-- Helper: the only canonical octet of value 127 is the digit list 1, 2, 7. -/
theorem octet_127 (g : List Char) (h : octetValue g = some 127) : g = ['1', '2', '7'] := by
  rcases octetValue_inv g 127 h with ⟨x, rfl, h1, h2, h3⟩ | ⟨x, y, rfl, h1, h2, h3, h4, h5⟩ |
    ⟨x, y, z, rfl, h1, h2, h3, h4, h5, h6, h7, h8⟩
  · exfalso; omega
  · exfalso; omega
  · have hx : x = '1' := charToNat_inj x '1' (by
      have : x.toNat = 49 := by omega
      rw [this]; decide)
    have hy : y = '2' := charToNat_inj y '2' (by
      have : y.toNat = 50 := by omega
      rw [this]; decide)
    have hz : z = '7' := charToNat_inj z '7' (by
      have : z.toNat = 55 := by omega
      rw [this]; decide)
    rw [hx, hy, hz]

/-- Helper: a parsed hostname starts with a decimal digit. -/
theorem hostname_head_digit (hl : String) (a : Nat) (ga t : List Char)
    (hcs : hl.toList = ga ++ '.' :: t) (ha : octetValue ga = some a) :
    ∃ x t2, hl.toList = x :: t2 ∧ 48 ≤ x.toNat ∧ x.toNat ≤ 57 := by
  rcases octetValue_inv ga a ha with ⟨x, rfl, h1, h2, h3⟩ | ⟨x, y, rfl, h1, h2, h3, h4, h5⟩ |
    ⟨x, y, z, rfl, h1, h2, h3, h4, h5, h6, h7, h8⟩
  · exact ⟨x, _, by simpa using hcs, h1, h2⟩
  · exact ⟨x, _, by simpa using hcs, by omega, h2⟩
  · exact ⟨x, _, by simpa using hcs, by omega, h2⟩

/-- Helper: a hostname starting with a digit differs from a string starting
with a non-digit. -/
theorem ne_of_digit_head (hl : String) (x : Char) (t2 : List Char)
    (hx1 : 48 ≤ x.toNat) (hx2 : x.toNat ≤ 57) (hcs : hl.toList = x :: t2)
    (lit : String) (c0 : Char) (t3 : List Char) (hlit : lit.toList = c0 :: t3)
    (hc0 : c0.toNat < 48 ∨ 57 < c0.toNat) : hl ≠ lit := by
  intro heq
  rw [heq, hlit] at hcs
  have hx : c0 = x := (List.cons.inj hcs).1
  rw [← hx] at hx1 hx2
  omega

/-- Helper: the only canonical octet of value 172 is the digit list 1, 7, 2. -/
theorem octet_172 (g : List Char) (h : octetValue g = some 172) : g = ['1', '7', '2'] := by
  rcases octetValue_inv g 172 h with ⟨x, rfl, h1, h2, h3⟩ | ⟨x, y, rfl, h1, h2, h3, h4, h5⟩ |
    ⟨x, y, z, rfl, h1, h2, h3, h4, h5, h6, h7, h8⟩
  · exfalso; omega
  · exfalso; omega
  · have hx : x = '1' := charToNat_inj x '1' (by
      have : x.toNat = 49 := by omega
      rw [this]; decide)
    have hy : y = '7' := charToNat_inj y '7' (by
      have : y.toNat = 55 := by omega
      rw [this]; decide)
    have hz : z = '2' := charToNat_inj z '2' (by
      have : z.toNat = 50 := by omega
      rw [this]; decide)
    rw [hx, hy, hz]

/-- Helper: the prefix 192.168. holds exactly when the first two octets are
192 and 168. -/
theorem starts192168_iff (hl : String) (a b : Nat) (ga gb t : List Char)
    (hcs : hl.toList = ga ++ '.' :: (gb ++ '.' :: t))
    (ha : octetValue ga = some a) (hb : octetValue gb = some b) :
    strStarts hl ("192.168.") = true ↔ (a = 192 ∧ b = 168) := by
  have hpat : ("192.168." : String).toList =
      '1' :: '9' :: '2' :: '.' :: ('1' :: '6' :: '8' :: '.' :: []) := rfl
  unfold strStarts
  rw [hpat, hcs]
  rw [octetLeads_gen ga (gb ++ '.' :: t) a ha ('1') ('9') ('2')
      ('1' :: '6' :: '8' :: '.' :: []) (by decide) (by decide) (by decide) (by decide)
      (by decide) (by decide)]
  rw [octetLeads_gen gb t b hb ('1') ('6') ('8') [] (by decide) (by decide)
      (by decide) (by decide) (by decide) (by decide)]
  have v1 : (('1' : Char).toNat - 48) * 100 + (('9' : Char).toNat - 48) * 10 +
      (('2' : Char).toNat - 48) = 192 := by decide
  have v2 : (('1' : Char).toNat - 48) * 100 + (('6' : Char).toNat - 48) * 10 +
      (('8' : Char).toNat - 48) = 168 := by decide
  rw [v1, v2]
  simp [leadsWith]

/-- Helper: the prefix 169.254. holds exactly when the first two octets are
169 and 254. -/
theorem starts169254_iff (hl : String) (a b : Nat) (ga gb t : List Char)
    (hcs : hl.toList = ga ++ '.' :: (gb ++ '.' :: t))
    (ha : octetValue ga = some a) (hb : octetValue gb = some b) :
    strStarts hl ("169.254.") = true ↔ (a = 169 ∧ b = 254) := by
  have hpat : ("169.254." : String).toList =
      '1' :: '6' :: '9' :: '.' :: ('2' :: '5' :: '4' :: '.' :: []) := rfl
  unfold strStarts
  rw [hpat, hcs]
  rw [octetLeads_gen ga (gb ++ '.' :: t) a ha ('1') ('6') ('9')
      ('2' :: '5' :: '4' :: '.' :: []) (by decide) (by decide) (by decide) (by decide)
      (by decide) (by decide)]
  rw [octetLeads_gen gb t b hb ('2') ('5') ('4') [] (by decide) (by decide)
      (by decide) (by decide) (by decide) (by decide)]
  have v1 : (('1' : Char).toNat - 48) * 100 + (('6' : Char).toNat - 48) * 10 +
      (('9' : Char).toNat - 48) = 169 := by decide
  have v2 : (('2' : Char).toNat - 48) * 100 + (('5' : Char).toNat - 48) * 10 +
      (('4' : Char).toNat - 48) = 254 := by decide
  rw [v1, v2]
  simp [leadsWith]

/-- Helper: the 172.(16-31). test holds exactly when the first octet is 172 and
the second lies between 16 and 31. -/
theorem matches172_iff (hl : String) (a b : Nat) (ga gb t : List Char)
    (hcs : hl.toList = ga ++ '.' :: (gb ++ '.' :: t))
    (ha : octetValue ga = some a) (hb : octetValue gb = some b) :
    matches172Range hl = true ↔ (a = 172 ∧ 16 ≤ b ∧ b ≤ 31) := by
  have hpat : ("172." : String).toList = '1' :: '7' :: '2' :: '.' :: [] := rfl
  unfold matches172Range strStarts
  rw [hpat, hcs]
  have e1 := octetLeads_gen ga (gb ++ '.' :: t) a ha ('1') ('7') ('2') []
      (by decide) (by decide) (by decide) (by decide) (by decide) (by decide)
  by_cases ha172 : a = 172
  · have hga : ga = ['1', '7', '2'] := octet_172 ga (ha172 ▸ ha)
    rw [hga]
    have hlead : leadsWith ('1' :: '7' :: '2' :: '.' :: [])
        (['1', '7', '2'] ++ '.' :: (gb ++ '.' :: t)) = true := by
      simp [leadsWith]
    rw [hlead]
    have hdrop : (['1', '7', '2'] ++ '.' :: (gb ++ '.' :: t)).drop 4 = gb ++ '.' :: t := by
      simp
    rw [hdrop, ha172]
    simp only [Bool.true_and, true_and]
    rcases octetValue_inv gb b hb with ⟨u, rfl, g1, g2, g3⟩ |
      ⟨u, v, rfl, g1, g2, g3, g4, g5⟩ | ⟨u, v, w, rfl, g1, g2, g3, g4, g5, g6, g7, g8⟩
    · rcases t with _ | ⟨t0, t2⟩
      · constructor
        · intro hm
          exact absurd hm (by simp)
        · intro hm
          exfalso
          omega
      · have hf1 : decide (54 ≤ ('.' : Char).toNat) = false := by decide
        have hf2 : isDigitChar ('.') = false := by decide
        have hf3 : (('.' : Char) == '0') = false := by decide
        have hf4 : (('.' : Char) == '1') = false := by decide
        simp only [List.cons_append, List.nil_append]
        constructor
        · intro hm
          simp only [hf1, hf2, hf3, hf4, Bool.false_and, Bool.and_false, Bool.false_or,
            Bool.or_false, Bool.or_self, Bool.and_eq_true] at hm
          exact absurd hm (by simp)
        · intro hm
          exfalso
          omega
    · simp only [List.cons_append, List.nil_append]
      have hdot : (('.' : Char) == '.') = true := by decide
      simp only [hdot, Bool.true_and, Bool.and_eq_true, Bool.or_eq_true, beq_iff_eq,
        decide_eq_true_iff]
      unfold isDigitChar
      simp only [Bool.and_eq_true, decide_eq_true_iff]
      constructor
      · rintro ((⟨hu, hv1, hv2⟩ | ⟨hu, hv1, hv2⟩) | ⟨hu, hv1 | hv1⟩)
        · have hu' := congrArg Char.toNat hu
          have h49 : ('1' : Char).toNat = 49 := by decide
          omega
        · have hu' := congrArg Char.toNat hu
          have h50 : ('2' : Char).toNat = 50 := by decide
          omega
        · have hu' := congrArg Char.toNat hu
          have hv' := congrArg Char.toNat hv1
          have h51 : ('3' : Char).toNat = 51 := by decide
          have h48 : ('0' : Char).toNat = 48 := by decide
          omega
        · have hu' := congrArg Char.toNat hu
          have hv' := congrArg Char.toNat hv1
          have h51 : ('3' : Char).toNat = 51 := by decide
          have h49 : ('1' : Char).toNat = 49 := by decide
          omega
      · rintro ⟨h16, h31⟩
        have hdu : u.toNat = 49 ∨ u.toNat = 50 ∨ u.toNat = 51 := by omega
        rcases hdu with hdu | hdu | hdu
        · exact Or.inl (Or.inl ⟨charToNat_inj u '1' (by rw [hdu]; decide),
            by omega, by omega⟩)
        · exact Or.inl (Or.inr ⟨charToNat_inj u '2' (by rw [hdu]; decide),
            by omega, by omega⟩)
        · refine Or.inr ⟨charToNat_inj u '3' (by rw [hdu]; decide), ?_⟩
          have hdv : v.toNat = 48 ∨ v.toNat = 49 := by omega
          rcases hdv with hdv | hdv
          · exact Or.inl (charToNat_inj v '0' (by rw [hdv]; decide))
          · exact Or.inr (charToNat_inj v '1' (by rw [hdv]; decide))
    · simp only [List.cons_append, List.nil_append]
      have hw : (w == '.') = false := by
        rw [beq_eq_false_iff_ne]
        intro hweq
        rw [hweq] at g5
        exact absurd g5 (by decide)
      simp only [hw, Bool.false_and]
      constructor
      · intro hm
        exact absurd hm (by simp)
      · intro hm
        exfalso
        omega
  · simp only [Bool.and_eq_true]
    constructor
    · rintro ⟨hlead, -⟩
      exact absurd (e1.mp hlead).1 ha172
    · rintro ⟨h172, -⟩
      exact absurd h172 ha172

/-- Helper: for a hostname that parses as an IPv4 literal, membership in the
blocked-hostname list is exactly being 127.0.0.1 or 0.0.0.0. -/
theorem blocked_iff (hl : String) (a b c d : Nat)
    (hp : parseIPv4 hl = some (a, b, c, d))
    (ga gb gc gd : List Char)
    (ha : octetValue ga = some a) (hb : octetValue gb = some b)
    (hc : octetValue gc = some c) (hd : octetValue gd = some d)
    (hcs : hl.toList = ga ++ '.' :: (gb ++ '.' :: (gc ++ '.' :: gd))) :
    blockedHostnames.contains hl = true ↔
      ((a, b, c, d) = (127, 0, 0, 1) ∨ (a, b, c, d) = (0, 0, 0, 0)) := by
  obtain ⟨x, t2, hxt, hx1, hx2⟩ := hostname_head_digit hl a ga _ hcs ha
  have e1 : hl ≠ "localhost" :=
    ne_of_digit_head hl x t2 hx1 hx2 hxt "localhost" ('l') _ rfl (by decide)
  have e4 : hl ≠ "::1" :=
    ne_of_digit_head hl x t2 hx1 hx2 hxt "::1" (':') _ rfl (by decide)
  have e5 : hl ≠ "[::1]" :=
    ne_of_digit_head hl x t2 hx1 hx2 hxt "[::1]" ('[') _ rfl (by decide)
  have e2 : hl = "127.0.0.1" ↔ (a, b, c, d) = (127, 0, 0, 1) := by
    constructor
    · intro heq
      rw [heq] at hp
      have hlit : parseIPv4 ("127.0.0.1") = some (127, 0, 0, 1) := by decide
      rw [hlit] at hp
      exact (Option.some.inj hp).symm
    · intro htup
      have ha' : a = 127 := congrArg (fun p => p.1) htup
      have hb' : b = 0 := congrArg (fun p => p.2.1) htup
      have hc' : c = 0 := congrArg (fun p => p.2.2.1) htup
      have hd' : d = 1 := congrArg (fun p => p.2.2.2) htup
      have hga : ga = ['1', '2', '7'] := octet_127 ga (ha' ▸ ha)
      have hgb : gb = ['0'] := octet_zero gb (hb' ▸ hb)
      have hgc : gc = ['0'] := octet_zero gc (hc' ▸ hc)
      have hgd : gd = ['1'] := octet_one gd (hd' ▸ hd)
      apply string_eq_of_toList_eq
      rw [hcs, hga, hgb, hgc, hgd]
      rfl
  have e3 : hl = "0.0.0.0" ↔ (a, b, c, d) = (0, 0, 0, 0) := by
    constructor
    · intro heq
      rw [heq] at hp
      have hlit : parseIPv4 ("0.0.0.0") = some (0, 0, 0, 0) := by decide
      rw [hlit] at hp
      exact (Option.some.inj hp).symm
    · intro htup
      have ha' : a = 0 := congrArg (fun p => p.1) htup
      have hb' : b = 0 := congrArg (fun p => p.2.1) htup
      have hc' : c = 0 := congrArg (fun p => p.2.2.1) htup
      have hd' : d = 0 := congrArg (fun p => p.2.2.2) htup
      have hga : ga = ['0'] := octet_zero ga (ha' ▸ ha)
      have hgb : gb = ['0'] := octet_zero gb (hb' ▸ hb)
      have hgc : gc = ['0'] := octet_zero gc (hc' ▸ hc)
      have hgd : gd = ['0'] := octet_zero gd (hd' ▸ hd)
      apply string_eq_of_toList_eq
      rw [hcs, hga, hgb, hgc, hgd]
      rfl
  show ((hl == "localhost" || (hl == "127.0.0.1" || (hl == "0.0.0.0" ||
      (hl == "::1" || (hl == "[::1]" || false)))))) = true ↔ _
  simp only [Bool.or_eq_true, beq_iff_eq, e2, e3]
  simp [e1, e4, e5]

set_option maxHeartbeats 1000000 in
/-- Helper: for a hostname whose lower-cased form parses as a canonical
dotted-quad IPv4 literal, the validator rejects exactly the literal 127.0.0.1,
the literal 0.0.0.0, and the four private CIDR blocks of the claim. -/
theorem webhook_rejected_iff_ipv4 (hst : String) (a b c d : Nat)
    (hp : parseIPv4 (lowerStr hst) = some (a, b, c, d)) :
    webhookHostnameRejected hst = true ↔
      ((a, b, c, d) = (127, 0, 0, 1) ∨ (a, b, c, d) = (0, 0, 0, 0) ∨ a = 10 ∨
       (a = 172 ∧ 16 ≤ b ∧ b ≤ 31) ∨ (a = 192 ∧ b = 168) ∨ (a = 169 ∧ b = 254)) := by
  obtain ⟨ga, gb, gc, gd, hsp, ha, hb, hc, hd⟩ := parseIPv4_inv (lowerStr hst) a b c d hp
  have hcs : (lowerStr hst).toList = ga ++ '.' :: (gb ++ '.' :: (gc ++ '.' :: gd)) := by
    have hj := splitOnDot_join (lowerStr hst).toList
    rw [hsp] at hj
    rw [← hj]
    rfl
  have hbl := blocked_iff (lowerStr hst) a b c d hp ga gb gc gd ha hb hc hd hcs
  have h10 := starts10_iff (lowerStr hst) a ga (gb ++ '.' :: (gc ++ '.' :: gd)) hcs ha
  have h192 := starts192168_iff (lowerStr hst) a b ga gb (gc ++ '.' :: gd) hcs ha hb
  have h169 := starts169254_iff (lowerStr hst) a b ga gb (gc ++ '.' :: gd) hcs ha hb
  have h172 := matches172_iff (lowerStr hst) a b ga gb (gc ++ '.' :: gd) hcs ha hb
  simp only [webhookHostnameRejected, Bool.or_eq_true]
  rw [hbl, h10, h192, h169, h172]
  constructor
  · rintro ((h | h) | (((h | h) | h) | h))
    · exact Or.inl h
    · exact Or.inr (Or.inl h)
    · exact Or.inr (Or.inr (Or.inr (Or.inr (Or.inl h))))
    · exact Or.inr (Or.inr (Or.inl h))
    · exact Or.inr (Or.inr (Or.inr (Or.inl h)))
    · exact Or.inr (Or.inr (Or.inr (Or.inr (Or.inr h))))
  · rintro (h | h | h | h | h | h)
    · exact Or.inl (Or.inl h)
    · exact Or.inl (Or.inr h)
    · exact Or.inr (Or.inl (Or.inl (Or.inr h)))
    · exact Or.inr (Or.inl (Or.inr h))
    · exact Or.inr (Or.inl (Or.inl (Or.inl h)))
    · exact Or.inr (Or.inr h)

/-- C5 amended: the webhook URL validator never consults the scheme (so http
and https are treated alike), accepts the literal host 127.0.0.2 (only the
literal 127.0.0.1 is blocked, not the loopback block), and performs
string-prefix matching rather than CIDR matching: domain names such as
10.example.com are also rejected. Restricted to hostnames whose lower-cased
form is a canonical dotted-quad IPv4 literal, rejection is exactly: the
literal 127.0.0.1, the literal 0.0.0.0, or membership in 10.0.0.0/8,
172.16.0.0/12, 192.168.0.0/16 or 169.254.0.0/16. -/
theorem webhook_policy_amended :
    (∀ s1 s2 hname : String,
      webhookUrlValidator ⟨s1, hname⟩ = webhookUrlValidator ⟨s2, hname⟩) ∧
    webhookHostnameRejected ("127.0.0.2") = false ∧
    webhookHostnameRejected ("10.example.com") = true ∧
    (∀ (hname : String) (a b c d : Nat),
      parseIPv4 (lowerStr hname) = some (a, b, c, d) →
      (webhookHostnameRejected hname = true ↔
        ((a, b, c, d) = (127, 0, 0, 1) ∨ (a, b, c, d) = (0, 0, 0, 0) ∨ a = 10 ∨
         (a = 172 ∧ 16 ≤ b ∧ b ≤ 31) ∨ (a = 192 ∧ b = 168) ∨ (a = 169 ∧ b = 254)))) :=
  ⟨fun _ _ _ => rfl, by decide, by decide, webhook_rejected_iff_ipv4⟩

/-- C5 amended witness: the IPv4 characterization applied to the private
literal 192.168.1.1 (rejected) and the public literal 8.8.8.8 (accepted). -/
theorem webhook_policy_amended_witness :
    webhookHostnameRejected ("192.168.1.1") = true ∧
    webhookHostnameRejected ("8.8.8.8") = false := by
  constructor
  · exact (webhook_policy_amended.2.2.2 "192.168.1.1" 192 168 1 1 (by decide)).mpr
      (Or.inr (Or.inr (Or.inr (Or.inr (Or.inl ⟨rfl, rfl⟩)))))
  · have h := webhook_policy_amended.2.2.2 "8.8.8.8" 8 8 8 8 (by decide)
    have hrhs : ¬(((8 : Nat), (8 : Nat), (8 : Nat), (8 : Nat)) = (127, 0, 0, 1) ∨
        ((8 : Nat), (8 : Nat), (8 : Nat), (8 : Nat)) = (0, 0, 0, 0) ∨ (8 : Nat) = 10 ∨
        ((8 : Nat) = 172 ∧ 16 ≤ (8 : Nat) ∧ (8 : Nat) ≤ 31) ∨
        ((8 : Nat) = 192 ∧ (8 : Nat) = 168) ∨ ((8 : Nat) = 169 ∧ (8 : Nat) = 254)) := by
      decide
    exact Bool.eq_false_iff.mpr (fun htrue => hrhs (h.mp htrue))

end OCRSpec
